import Mathlib

/-!
Shallow embedding of `src/application/main.py` from
lightdm-another-gtk-greeter-settings.

The embedded pieces are: `to_bool`, the `WidgetsBinding` block-flag
computation (line 63) and `block_signals` (lines 23-29); one state record
and `_set_widget_value` / `reset` per option kind instantiated by the
`OPTIONS` registry (lines 118-293); the `configparser`-backed store with
the operations `Application.read` (lines 419-429) and `Application.save`
(lines 431-451) use; and the read/save protocols themselves over an
abstract per-instance record.

Widget signal emission follows the toolkit semantics the code is written
against (and which §4.3 of the design relies on): writing a toggle
button's `active`, an entry's `text`, a switch's `active` or a list-model
row's column emits the corresponding change notification (`toggled`,
`changed`, `notify`, `row-changed`) also for programmatic writes, while
the commit-style signals `file-set`, `color-set` and `font-set` are only
emitted by user interaction.  A `GtkEntry` emits `changed` only when the
new text differs from the current one.  Each kind's setter below inlines
the handlers that actually fire under the block flags of its bindings.

All line numbers refer to `src/application/main.py`.
-/

/-! ### Association lists (Python `dict` fragment: ordered, unique keys) -/

/-- Lookup of the first binding of a key. -/
def alookup {κ α : Type} [DecidableEq κ] : List (κ × α) → κ → Option α
  | [], _ => none
  | (k, v) :: rest, key => if k = key then some v else alookup rest key

/-- `dict` update: replace the first binding in place, else append (Python
dicts keep insertion order and append new keys at the end). -/
def aset {κ α : Type} [DecidableEq κ] : List (κ × α) → κ → α → List (κ × α)
  | [], key, v => [(key, v)]
  | (k, w) :: rest, key, v =>
      if k = key then (k, v) :: rest else (k, w) :: aset rest key v

/-- `del d[k]` tolerating absence (callers of this model guard existence as
the source does). -/
def aremove {κ α : Type} [DecidableEq κ] (l : List (κ × α)) (key : κ) : List (κ × α) :=
  l.filter (fun p => !(p.1 = key))

/-! ### `to_bool` (lines 18-19) -/

/-- ASCII branch of `str.lower`, as applied to the value vocabulary this
program stores. -/
def pyLowerChar (c : Char) : Char :=
  if 65 ≤ c.toNat ∧ c.toNat ≤ 90 then Char.ofNat (c.toNat + 32) else c

def pyLower (s : String) : String := String.mk (s.data.map pyLowerChar)

/-- `to_bool` on a string: `s.lower() in {'1','true','yes','on','enabled'}`
(line 19). -/
def pyToBool (s : String) : Bool :=
  ["1", "true", "yes", "on", "enabled"].contains (pyLower s)

/-- `to_bool` on a non-string (the `bool(s)` branch of line 19), for the
`int(widget.props.active)` values `BooleanOption` produces. -/
def pyToBoolInt (n : Int) : Bool := n != 0

/-- Python truthiness of a string (`bool(value)`, `not value`). -/
def pyTruthy (s : String) : Bool := s != ""

/-- `value.startswith('#')` (lines 184, 218). -/
def startsHash (s : String) : Bool :=
  match s.data with
  | c :: _ => c.toNat = 35
  | [] => false

/-- `value[1:]`. -/
def strDrop1 (s : String) : String := String.mk (s.data.drop 1)

/-! ### `BindingTuple` and the block flag (lines 21, 60-66) -/

/-- One entry of a kind's `WidgetsBinding` as materialised into
`self._signals` (lines 61-64): widget name, signal name, handler name
(`""` selects the default `_on_change`), and the `*block` splat. -/
structure Binding where
  widget : String
  signal : String
  handler : String
  blockArgs : List Bool
deriving DecidableEq

/-- Line 63: `(not handler and not block) or (block and block[0])` — the
per-binding flag telling `block_signals` whether to suspend this handler
during a programmatic write. -/
def Binding.blockFlag (b : Binding) : Bool :=
  (b.handler == "" && b.blockArgs.isEmpty) || (!b.blockArgs.isEmpty && b.blockArgs.headD false)

/-- The `WidgetsBinding` tables of the registry kinds (lines 119, 125, 133,
160, 167, 182, 216, 241, 252, 268). -/
def booleanBindings : List Binding := [⟨"", "toggled", "", []⟩]

def booleanSwitchBindings : List Binding := [⟨"", "notify", "_on_notify_active_signal", [true]⟩]

def stringBindings : List Binding := [⟨"", "changed", "", []⟩]

def fontBindings : List Binding := [⟨"", "font-set", "", []⟩]

def pathBindings : List Binding := [⟨"", "file-set", "", []⟩]

def backgroundBindings : List Binding :=
  [⟨"file", "file-set", "_on_file_changed", []⟩,
   ⟨"color", "color-set", "_on_color_changed", []⟩,
   ⟨"is_file", "toggled", "", []⟩]

def iconBindings : List Binding :=
  [⟨"file", "file-set", "_on_file_changed", []⟩,
   ⟨"icon", "changed", "_on_icon_changed", []⟩,
   ⟨"is_file", "toggled", "", []⟩]

def fontScaleBindings : List Binding :=
  [⟨"use", "toggled", "", []⟩, ⟨"scale", "changed", "", []⟩]

def oskBindings : List Binding :=
  [⟨"use_onboard", "toggled", "", []⟩, ⟨"command", "changed", "", []⟩]

def indicatorBindings : List Binding :=
  [⟨"", "row-changed", "_on_row_changed", []⟩, ⟨"toggle", "toggled", "_on_toggled", []⟩]

/-! ### `block_signals` (lines 23-29)

The observable state is the per-(widget, handler) nested block count that
`handler_block_by_func` / `handler_unblock_by_func` maintain. The wrapped
`f` is state-passing and may raise (`Except.error`); a raise propagates
out of line 26 before the unblock loop of lines 27-28 runs — the source
has no `try/finally` around the call. -/

abbrev BlockCounts := List ((String × String) × Nat)

def bumpBlock (st : BlockCounts) (w h : String) : BlockCounts :=
  aset st (w, h) ((alookup st (w, h)).getD 0 + 1)

def dropBlock (st : BlockCounts) (w h : String) : BlockCounts :=
  aset st (w, h) ((alookup st (w, h)).getD 0 - 1)

/-- `block_signals(widgets, f, ...)` (lines 23-29). -/
def blockSignals {α : Type} (bs : List Binding)
    (f : BlockCounts → BlockCounts × Except String α) (st : BlockCounts) :
    BlockCounts × Except String α :=
  let st1 := bs.foldl (fun acc b => if b.blockFlag then bumpBlock acc b.widget b.handler else acc) st
  match f st1 with
  | (st2, Except.ok a) =>
      (bs.foldl (fun acc b => if b.blockFlag then dropBlock acc b.widget b.handler else acc) st2,
       Except.ok a)
  | (st2, Except.error e) => (st2, Except.error e)

/-! ### Option kinds: widget state, `_set_widget_value` under the value
setter's blocking (lines 94-97 via `block_default_signals`, lines 31-35),
and `reset` (lines 72-74).

`reset` is `self.value = self._default; self._changed = False`; the label
font decoration of lines 75-76/79-80 is presentation-only (the design
treats it as an optional observer) and is not part of these states.
Values are carried as the strings the text store exchanges; the registry's
non-string defaults (`True`, `False`, `96`) behave identically to their
`str` images under `to_bool` / `str`, which is how they are modelled. -/

/-- `BooleanOption` (lines 118-130): one toggle (or switch). Its single
binding has block flag true, so the `toggled` / `notify` emission of the
programmatic `active` write is suppressed: `changed` is untouched. -/
structure BoolOptState where
  active : Bool
  enabled : Bool
  changed : Bool
deriving DecidableEq

def boolSetValue (v : String) (s : BoolOptState) : BoolOptState :=
  { s with active := pyToBool v }

def boolReset (d : String) (s : BoolOptState) : BoolOptState :=
  { boolSetValue d s with changed := false }

/-- `_get_widget_value` is `int(active)` (line 130); `save` stores
`str(option.value)` (line 437). -/
def boolFormat (b : Bool) : String := if b then "1" else "0"

/-- `StringOption` (lines 132-137) and `IntegerOption` (lines 139-143,
which writes `str(value)` through the string path). The `changed` binding
has block flag true, so the entry's emission is suppressed. -/
structure StringOptState where
  text : String
  enabled : Bool
  changed : Bool
deriving DecidableEq

def stringSetValue (v : String) (s : StringOptState) : StringOptState :=
  { s with text := v }

def stringReset (d : String) (s : StringOptState) : StringOptState :=
  { stringSetValue d s with changed := false }

def intSetValue (v : String) (s : StringOptState) : StringOptState :=
  stringSetValue v s

def intReset (d : String) (s : StringOptState) : StringOptState :=
  { intSetValue d s with changed := false }

/-- `FontOption` (lines 159-164): `font_name` write emits no `font-set`
(commit-style signal), and the binding is block-flagged anyway. -/
structure FontOptState where
  fontName : String
  enabled : Bool
  changed : Bool
deriving DecidableEq

def fontSetValue (v : String) (s : FontOptState) : FontOptState :=
  { s with fontName := v }

def fontReset (d : String) (s : FontOptState) : FontOptState :=
  { fontSetValue d s with changed := false }

/-- `PathOption` (lines 166-178). `select_filename` emits no `file-set`.
`pathResolve` models `os.path.abspath(os.path.join(dir, value))` for the
absolute base directories this program configures; `abspath`'s additional
separator normalisation is a deterministic string map that no claim
depends on. -/
structure PathOptState where
  file : Option String
  enabled : Bool
  changed : Bool
deriving DecidableEq

def pathIsAbs (v : String) : Bool :=
  match v.data with
  | c :: _ => c.toNat = 47
  | [] => false

def pathResolve (dir v : String) : String :=
  if pathIsAbs v then v else (if dir = "" then v else dir ++ "/" ++ v)

def pathSetValue (dir v : String) (s : PathOptState) : PathOptState :=
  if v = "" then { s with file := none }
  else { s with file := some (pathResolve dir v) }

def pathReset (dir d : String) (s : PathOptState) : PathOptState :=
  { pathSetValue dir d s with changed := false }

/-! `BackgroundOption` (lines 180-212). The `is_file` toggle's binding is
block-flagged; `is_color` has no binding; `file-set` / `color-set` are
user-only, so `_on_file_changed` / `_on_color_changed` never fire during a
programmatic write. -/

def hexDigitCode (n : Nat) : Bool :=
  (48 ≤ n && n ≤ 57) || (65 ≤ n && n ≤ 70) || (97 ≤ n && n ≤ 102)

/-- `int(x, 16)` succeeds: optional sign then a nonempty run of hex digits
(the whitespace/underscore forms Python also accepts never arise here). -/
def pyIntHexOk (cs : List Char) : Bool :=
  match cs with
  | [] => false
  | c :: rest =>
      if c.toNat = 45 || c.toNat = 43 then
        !rest.isEmpty && rest.all (fun d => hexDigitCode d.toNat)
      else
        cs.all (fun d => hexDigitCode d.toNat)

/-- Fragment of `Gdk.color_parse`: `#` followed by 3/6/9/12 hex digits
parses; other strings (including the named colours Gdk also accepts) are
treated as unparsed, leaving the colour widget unwritten. No claim depends
on which strings parse — only on the map being a fixed deterministic one. -/
def gdkColorParse (s : String) : Option String :=
  if startsHash s && !(strDrop1 s).data.isEmpty
      && (strDrop1 s).data.all (fun d => hexDigitCode d.toNat)
      && [3, 6, 9, 12].contains (strDrop1 s).data.length then
    some s
  else none

structure BackgroundOptState where
  isFile : Bool
  isColor : Bool
  file : Option String
  color : String
  enabled : Bool
  changed : Bool
deriving DecidableEq

def backgroundSetValue (v : String) (s : BackgroundOptState) : BackgroundOptState :=
  let isf := !startsHash v
  let s1 := { s with isFile := isf, isColor := !isf }
  let s2 := if !pyTruthy v || !isf then { s1 with file := none } else s1
  if isf then
    { s2 with file := if v = "" then none else some v }
  else
    let v2 := if pyIntHexOk (strDrop1 v).data then v else strDrop1 v
    match gdkColorParse v2 with
    | some col => { s2 with color := col }
    | none => s2

def backgroundReset (d : String) (s : BackgroundOptState) : BackgroundOptState :=
  { backgroundSetValue d s with changed := false }

/-- `IconOption` (lines 214-237). The `('icon','changed','_on_icon_changed')`
binding has block flag false (line 63: named handler, no explicit block),
so when the entry write of line 226 emits `changed` (i.e. when the new
text differs from the current one) the handler of lines 232-234 runs:
`is_icon.active := True; touch()`. -/
structure IconOptState where
  isFile : Bool
  isIcon : Bool
  file : Option String
  iconText : String
  enabled : Bool
  changed : Bool
deriving DecidableEq

def iconSetValue (v : String) (s : IconOptState) : IconOptState :=
  let isf := !startsHash v
  let s1 := { s with isFile := isf, isIcon := !isf }
  if isf then
    { s1 with file := if v = "" then none else some v }
  else
    let t := strDrop1 v
    let s2 := { s1 with file := none }
    if t = s2.iconText then { s2 with iconText := t }
    else { s2 with iconText := t, isIcon := true, changed := true }

def iconReset (d : String) (s : IconOptState) : IconOptState :=
  { iconSetValue d s with changed := false }

/-- `FontScaleOption` (lines 239-248): both bindings block-flagged. -/
structure FontScaleOptState where
  use : Bool
  disabledBtn : Bool
  scaleText : String
  enabled : Bool
  changed : Bool
deriving DecidableEq

def fontScaleSetValue (v : String) (s : FontScaleOptState) : FontScaleOptState :=
  let s1 := { s with use := pyTruthy v, disabledBtn := !pyTruthy v }
  if pyTruthy v then { s1 with scaleText := v } else s1

def fontScaleReset (d : String) (s : FontScaleOptState) : FontScaleOptState :=
  { fontScaleSetValue d s with changed := false }

/-- `OSKOption` (lines 250-259): both bindings block-flagged. -/
structure OSKOptState where
  useOnboard : Bool
  useCommand : Bool
  command : String
  enabled : Bool
  changed : Bool
deriving DecidableEq

def oskSetValue (v : String) (s : OSKOptState) : OSKOptState :=
  let onb := v == "#onboard"
  { s with useOnboard := onb, useCommand := !onb, command := if !onb then v else "" }

def oskReset (d : String) (s : OSKOptState) : OSKOptState :=
  { oskSetValue d s with changed := false }

/-- `IndicatorOption` (lines 261-293). The bound row's ENABLED and
INCONSISTENT model columns plus the wrapper's `_enabled` / `_changed`. -/
structure IndicatorOptState where
  rowEnabled : Bool
  rowInconsistent : Bool
  enabled : Bool
  changed : Bool
deriving DecidableEq

/-- `_set_widget_value` (lines 290-291) writes the ENABLED column. Both
`indicatorBindings` carry block flag false (line 63: named handlers, no
explicit block), a `GtkListStore` column write emits `row-changed`, and
`_on_row_changed` (lines 273-275) sees its own row, so `touch()` runs and
sets `changed` even though the write came through the value setter. -/
def indicatorSetValue (v : String) (s : IndicatorOptState) : IndicatorOptState :=
  { s with rowEnabled := pyToBool v, changed := true }

def indicatorReset (d : String) (s : IndicatorOptState) : IndicatorOptState :=
  { indicatorSetValue d s with changed := false }

/-- `_on_toggled` (lines 276-286). `samePath` is the guard of line 277
(`str(self._row.path) != path`). The two row writes of lines 280-281 also
emit `row-changed` and transiently `touch()`; the final value of `changed`
is decided by lines 283-286 in both branches, so the transient is
invisible in the post-state. -/
def indicatorOnToggled (samePath : Bool) (s : IndicatorOptState) : IndicatorOptState :=
  if samePath = false then s
  else
    let state := ((if s.rowEnabled then 1 else 0) + (if s.rowInconsistent then 2 else 0) + 1) % 3
    { rowEnabled := decide (state % 2 = 1),
      rowInconsistent := decide (state > 1),
      enabled := decide (state < 2),
      changed := if state > 1 then false else true }

/-! ### The store: `configparser.ConfigParser` fragment

`read()` builds `configparser.ConfigParser(allow_no_value=True)` (line
420). The model keeps the `DEFAULT` section (`_defaults`) apart from the
ordered named sections (`_sections`), as `configparser` does; keys are
already in `optionxform` (lower-case) form everywhere this program uses
them.

`BasicInterpolation` is modelled on its interpolation-free fragment: a
value containing no `%` is returned by `get` and accepted by `set`
unchanged (which is exactly what `BasicInterpolation` does to it); any
value containing `%` is outside the modelled fragment and mapped to an
error (real `configparser` would interpolate `%%` and `%(key)s` forms and
raise on every other `%` use). -/

/-- Value is inside the interpolation-free fragment. -/
def noPercent (s : String) : Bool := !(s.data.contains (Char.ofNat 37))

structure ConfigParser where
  defaults : List (String × String)
  sections : List (String × List (String × String))
deriving DecidableEq

/-- `has_section` (used at line 435): the DEFAULT section never counts. -/
def ConfigParser.hasSection (c : ConfigParser) (s : String) : Bool :=
  !(s == "DEFAULT") && (alookup c.sections s).isSome

/-- `add_section` (line 436): `ValueError` on DEFAULT, duplicate error if
present, else appended at the end with no keys. -/
def ConfigParser.addSection (c : ConfigParser) (s : String) : Except String ConfigParser :=
  if s = "DEFAULT" then Except.error ("ValueError")
  else if (alookup c.sections s).isSome then Except.error ("DuplicateSectionError")
  else Except.ok { c with sections := c.sections ++ [(s, [])] }

/-- `set(section, key, value)` (line 437): `BasicInterpolation.before_set`
check, DEFAULT writes `_defaults`, missing section raises
`NoSectionError`, else in-place dict update. -/
def ConfigParser.setOpt (c : ConfigParser) (s k v : String) : Except String ConfigParser :=
  if noPercent v = false then Except.error ("InterpolationSyntaxError")
  else if s = "DEFAULT" then Except.ok { c with defaults := aset c.defaults k v }
  else
    match alookup c.sections s with
    | none => Except.error ("NoSectionError")
    | some kvs => Except.ok { c with sections := aset c.sections s (aset kvs k v) }

/-- `remove_option(section, key)` (line 439): DEFAULT targets `_defaults`,
a missing section raises `NoSectionError`, a missing key is a no-op. -/
def ConfigParser.removeOpt (c : ConfigParser) (s k : String) : Except String ConfigParser :=
  if s = "DEFAULT" then Except.ok { c with defaults := aremove c.defaults k }
  else
    match alookup c.sections s with
    | none => Except.error ("NoSectionError")
    | some kvs => Except.ok { c with sections := aset c.sections s (aremove kvs k) }

/-- `has_option(section, key)` (line 427): DEFAULT (or empty) section name
consults `_defaults`; a missing section raises `NoSectionError`; otherwise
the key counts when in the section's own dict or inherited from DEFAULT. -/
def ConfigParser.hasOpt (c : ConfigParser) (s k : String) : Except String Bool :=
  if s = "" || s = "DEFAULT" then Except.ok (alookup c.defaults k).isSome
  else
    match alookup c.sections s with
    | none => Except.error ("NoSectionError")
    | some kvs => Except.ok ((alookup kvs k).isSome || (alookup c.defaults k).isSome)

/-- `self.config[section][key]` (line 428): `KeyError` on a missing
section, DEFAULT-inherited fallback for the key, interpolation applied to
the result. -/
def ConfigParser.getOpt (c : ConfigParser) (s k : String) : Except String String :=
  if s = "DEFAULT" then
    match alookup c.defaults k with
    | none => Except.error ("KeyError")
    | some v => if noPercent v then Except.ok v else Except.error ("InterpolationSyntaxError")
  else
    match alookup c.sections s with
    | none => Except.error ("KeyError")
    | some kvs =>
        match (alookup kvs k).orElse (fun _ => alookup c.defaults k) with
        | none => Except.error ("KeyError")
        | some v => if noPercent v then Except.ok v else Except.error ("InterpolationSyntaxError")

/-- The pruning step of `save` (lines 441-443):
`[s for s in config if s != 'DEFAULT' and not config[s]]` then deletion.
`not config[s]` is the truthiness of the section proxy, whose length
counts the section's own keys plus the DEFAULT-inherited ones
(`ConfigParser.options`), so a section is deleted exactly when its own
dict and `_defaults` are both empty; the DEFAULT entry of the iteration
is excluded by the `s != 'DEFAULT'` test. -/
def ConfigParser.prune (c : ConfigParser) : ConfigParser :=
  { c with sections :=
      c.sections.filter (fun p => !(!(p.1 == "DEFAULT") && p.2.isEmpty && c.defaults.isEmpty)) }

/-- Own (section-local) value of a key: what `write()` puts in the output
file for that section (`write` emits each section's own items only). -/
def ownLookup (c : ConfigParser) (s k : String) : Option String :=
  (alookup c.sections s).bind (fun kvs => alookup kvs k)

/-! ### Option instances and the read/save protocols

For the store-level protocols an instance is its `(section, key)` path,
the registry's static default (`OPTIONS[section][key][1]`), the mutable
`default`, the formatted current control value (`str(option.value)`, the
string `save` would store), and the `enabled` / `changed` flags. The
kind-specific control behaviour is modelled by the per-kind setters
above; `value`/`dflt` here carry their formatted images. -/

structure ConfOption where
  sec : String
  key : String
  staticDefault : String
  dflt : String
  value : String
  enabled : Bool
  changed : Bool
deriving DecidableEq

/-- One iteration of the `read` loop (lines 426-429):
`enabled := has_option(section, key)`;
`default := config[section][key] if enabled else static default`;
`reset()` — which writes `default` into the controls and clears
`changed`. -/
def readOne (c : ConfigParser) (o : ConfOption) : Except String ConfOption :=
  match c.hasOpt o.sec o.key with
  | Except.error e => Except.error e
  | Except.ok en =>
      match (if en then c.getOpt o.sec o.key else Except.ok o.staticDefault) with
      | Except.error e => Except.error e
      | Except.ok d =>
          Except.ok { o with enabled := en, dflt := d, value := d, changed := false }

/-- The `read` loop over the instances in declaration order. -/
def readOptions (c : ConfigParser) : List ConfOption → Except String (List ConfOption)
  | [] => Except.ok []
  | o :: rest =>
      match readOne c o with
      | Except.error e => Except.error e
      | Except.ok o2 =>
          match readOptions c rest with
          | Except.error e => Except.error e
          | Except.ok rest2 => Except.ok (o2 :: rest2)

/-- One iteration of the `save` diff loop (lines 432-439): only `changed`
instances act; an enabled one ensures its section and upserts
`str(option.value)`, a disabled one removes the key. -/
def applyOpt (c : ConfigParser) (o : ConfOption) : Except String ConfigParser :=
  if o.changed then
    if o.enabled then
      match (if c.hasSection o.sec then Except.ok c else c.addSection o.sec) with
      | Except.error e => Except.error e
      | Except.ok c1 => c1.setOpt o.sec o.key o.value
    else c.removeOpt o.sec o.key
  else Except.ok c

/-- The diff loop of `save` over all instances. -/
def saveDiff (c : ConfigParser) : List ConfOption → Except String ConfigParser
  | [] => Except.ok c
  | o :: rest =>
      match applyOpt c o with
      | Except.error e => Except.error e
      | Except.ok c1 => saveDiff c1 rest

/-- `save` up to (and including) the pruning step (lines 431-443): the
store that `config.write` then serialises. -/
def saveStore (c : ConfigParser) (opts : List ConfOption) : Except String ConfigParser :=
  match saveDiff c opts with
  | Except.error e => Except.error e
  | Except.ok c1 => Except.ok c1.prune

/-- In-memory session state: the parsed store and the option instances. -/
structure AppState where
  config : ConfigParser
  options : List ConfOption
deriving DecidableEq

/-- Result of a completed `save()` call: the new session state, the
returned boolean, and whether `show_error` ran. -/
structure SaveOutcome where
  state : AppState
  ok : Bool
  errorShown : Bool
deriving DecidableEq

/-- `Application.save` (lines 431-451). `writeOk` is the outcome of the
external `open(...).write` call (line 446-447): when it raises `OSError`
the error is shown and `False` is returned (lines 448-450), else `True`
(line 451). The option instances are never assigned to — the new state
carries them through unchanged. An `Except.error` is an uncaught Python
exception escaping `save` (e.g. `NoSectionError` from line 439). -/
def appSave (st : AppState) (writeOk : Bool) : Except String SaveOutcome :=
  match saveStore st.config st.options with
  | Except.error e => Except.error e
  | Except.ok c2 =>
      Except.ok { state := { config := c2, options := st.options },
                  ok := writeOk, errorShown := !writeOk }

/-- `_on_ok_clicked` (lines 470-472): `Gtk.main_quit` exactly when `save()`
returned `True`; the second component is the quit decision. An uncaught
exception propagates to the main loop (no quit). -/
def onOkClicked (st : AppState) (writeOk : Bool) : Except String (AppState × Bool) :=
  match appSave st writeOk with
  | Except.error e => Except.error e
  | Except.ok r => Except.ok (r.state, r.ok)

/-! ### Integer parse/format (`IntegerOption`, lines 139-143)

`_get_widget_value` is `int(text)`, `save` stores `str(value)`. `str` of
an int is an optional minus sign followed by decimal digits; `int(s)` is
modelled on the fragment it meets here: optional sign then a nonempty
digit run (Python additionally strips surrounding whitespace and allows
`_` separators, which `str` never produces). -/

/-- Decimal digits of `n`, most significant first. -/
def natDigits (n : Nat) : List Nat :=
  if h : n < 10 then [n]
  else
    have : n / 10 < n := Nat.div_lt_self (by omega) (by omega)
    natDigits (n / 10) ++ [n % 10]

def digitChr (d : Nat) : Char := Char.ofNat (48 + d)

def natDigitChars (n : Nat) : List Char := (natDigits n).map digitChr

/-- `str` on a Python int. -/
def pyStrInt (i : Int) : String :=
  if i < 0 then String.mk (Char.ofNat 45 :: natDigitChars i.natAbs)
  else String.mk (natDigitChars i.natAbs)

def chrDigit (c : Char) : Option Nat :=
  if 48 ≤ c.toNat ∧ c.toNat ≤ 57 then some (c.toNat - 48) else none

def digitsVal (ds : List Nat) : Nat := ds.foldl (fun a d => a * 10 + d) 0

/-- All characters decoded as digits, or failure at the first non-digit. -/
def digitsOf : List Char → Option (List Nat)
  | [] => some []
  | c :: cs =>
      match chrDigit c, digitsOf cs with
      | some d, some ds => some (d :: ds)
      | _, _ => none

/-- Nonempty all-digit run to its value. -/
def parseDigitRun (cs : List Char) : Except String Nat :=
  match cs with
  | [] => Except.error ("ValueError")
  | _ :: _ =>
      match digitsOf cs with
      | none => Except.error ("ValueError")
      | some ds => Except.ok (digitsVal ds)

/-- `int(s)` on the fragment above. -/
def pyInt (s : String) : Except String Int :=
  match s.data with
  | [] => Except.error ("ValueError")
  | c :: rest =>
      if c.toNat = 45 then
        match parseDigitRun rest with
        | Except.error e => Except.error e
        | Except.ok n => Except.ok (-(n : Int))
      else if c.toNat = 43 then
        match parseDigitRun rest with
        | Except.error e => Except.error e
        | Except.ok n => Except.ok (n : Int)
      else
        match parseDigitRun (c :: rest) with
        | Except.error e => Except.error e
        | Except.ok n => Except.ok (n : Int)

/-! ### Concrete fixtures for the closed statements below -/

/-- A binding whose handler `block_signals` does block: the default-handler
shape `('', 'toggled', '')` of `BooleanOption.WidgetsBinding` (line 119). -/
def bindW : Binding := ⟨"w", "toggled", "", []⟩

/-- A wrapped mutation that raises (as `_set_widget_value` can, e.g.
`float(...)`/`int(...)` in `FontScaleOption`/`IntegerOption` paths). -/
def fRaise : BlockCounts → BlockCounts × Except String Nat :=
  fun st => (st, Except.error ("ValueError"))

/-- A wrapped mutation that returns normally. -/
def fOk : BlockCounts → BlockCounts × Except String Nat :=
  fun st => (st, Except.ok 0)

/-- An indicator row in the cleanly-enabled state with `changed = false`. -/
def cleanEnabledRow : IndicatorOptState := ⟨true, false, true, false⟩

/-- Store with one `appearance` section holding two keys. -/
def storeAB : ConfigParser :=
  ⟨[], [("appearance", [("theme-name", "dark"), ("icon-theme-name", "x")])]⟩

/-- `(appearance, theme-name)`: changed and enabled, new value `light`. -/
def optTheme : ConfOption :=
  ⟨"appearance", "theme-name", "default", "dark", "light", true, true⟩

/-- `(appearance, icon-theme-name)`: changed and disabled. -/
def optIconTheme : ConfOption :=
  ⟨"appearance", "icon-theme-name", "default", "x", "x", false, true⟩

/-- `(greeter, allow-other-users)`: untouched. -/
def optAllow : ConfOption :=
  ⟨"greeter", "allow-other-users", "False", "False", "False", false, false⟩

/-- `storeAB` after saving the three options above. -/
def storeAB2 : ConfigParser :=
  ⟨[], [("appearance", [("theme-name", "light")])]⟩

/-- Store whose DEFAULT section is nonempty, with a one-key `clock`
section. -/
def storeDefaulted : ConfigParser :=
  ⟨[("greeting", "hello")], [("clock", [("enabled", "1")])]⟩

/-- `(clock, enabled)`: changed and disabled (key is to be removed). -/
def optClockOff : ConfOption :=
  ⟨"clock", "enabled", "True", "1", "0", false, true⟩

/-- `storeDefaulted` after saving `optClockOff`: `clock` is emptied but
survives pruning because of the nonempty DEFAULT section. -/
def storeDefaulted2 : ConfigParser :=
  ⟨[("greeting", "hello")], [("clock", [])]⟩

/-- Store for the read protocol: `appearance.theme-name = dark`. -/
def storeRead : ConfigParser :=
  ⟨[], [("appearance", [("theme-name", "dark")])]⟩

/-- The `(appearance, theme-name)` instance before `read` runs (stale
flags). -/
def optThemeFresh : ConfOption :=
  ⟨"appearance", "theme-name", "default", "", "", false, true⟩

/-- The same instance as `read` leaves it. -/
def optThemeRead : ConfOption :=
  ⟨"appearance", "theme-name", "default", "dark", "dark", true, false⟩

/-- Session used for the failed-write scenario. -/
def stateW7 : AppState := ⟨storeAB, [optTheme]⟩

/-- Outcome of `save()` on `stateW7` when the file write raises OSError. -/
def outcomeW7 : SaveOutcome :=
  ⟨⟨⟨[], [("appearance", [("theme-name", "light"), ("icon-theme-name", "x")])]⟩, [optTheme]⟩,
   false, true⟩

/-- Store whose only section holds only the key a disabled changed option
removes: the first save prunes the section away. -/
def storeClockOnly : ConfigParser := ⟨[], [("clock", [("enabled", "1")])]⟩

def emptyStore : ConfigParser := ⟨[], []⟩

/-- Same scenario but with a second key keeping `clock` alive. -/
def storeClockTwo : ConfigParser :=
  ⟨[], [("clock", [("enabled", "1"), ("show-calendar", "1")])]⟩

def storeClockTwo2 : ConfigParser :=
  ⟨[], [("clock", [("show-calendar", "1")])]⟩

/-! ## Theorems -/

/-- Block flags of the registry kinds' bindings (line 63): every default
`_on_change` binding (and the switch's explicitly flagged one) is
suspended during programmatic writes; the named handlers of
`BackgroundOption`, `IconOption` and `IndicatorOption` are not. -/
theorem binding_block_flags :
    booleanBindings.map Binding.blockFlag = [true] ∧
    booleanSwitchBindings.map Binding.blockFlag = [true] ∧
    stringBindings.map Binding.blockFlag = [true] ∧
    fontBindings.map Binding.blockFlag = [true] ∧
    pathBindings.map Binding.blockFlag = [true] ∧
    backgroundBindings.map Binding.blockFlag = [false, false, true] ∧
    iconBindings.map Binding.blockFlag = [false, false, true] ∧
    fontScaleBindings.map Binding.blockFlag = [true, true] ∧
    oskBindings.map Binding.blockFlag = [true, true] ∧
    indicatorBindings.map Binding.blockFlag = [false, false] := by decide

/-- Claim C1 (code_bug): `block_signals` (lines 23-29) has no
`try/finally`, so when the wrapped mutation raises, the unblock loop of
lines 27-28 never runs and the blocked handler stays blocked (count 1),
while on the normal path it is resumed (count back to 0). The claim — and
§4.3 of the design, which requires the resume step to be unconditional —
says the handler must be unblocked on the raising path too. -/
theorem block_signals_leaves_handler_blocked_on_raise :
    blockSignals [bindW] fRaise [] = ([(("w", ""), 1)], Except.error ("ValueError")) ∧
    blockSignals [bindW] fOk [] = ([(("w", ""), 0)], Except.ok 0) :=
  ⟨rfl, rfl⟩

/-- Claim C2, counterexample: from the cleanly-enabled state it is the
first toggle, not the second, that enters `(enabled=false,
inconsistent=true)`; the second toggle leaves the row cleanly disabled
`(false, false)`. `(e*1 + i*2 + 1) % 3` (line 279) maps the clean-enabled
encoding 1 to 2 (inconsistent), not to 0. -/
theorem indicator_first_toggle_enters_inconsistent :
    (indicatorOnToggled true (indicatorOnToggled true cleanEnabledRow)).rowEnabled = false ∧
    (indicatorOnToggled true (indicatorOnToggled true cleanEnabledRow)).rowInconsistent = false ∧
    (indicatorOnToggled true cleanEnabledRow).rowEnabled = false ∧
    (indicatorOnToggled true cleanEnabledRow).rowInconsistent = true := by decide

/-- Claim C2, amended: three successive toggles return the row to
`(enabled=true, inconsistent=false)`, but the cycle order is
cleanly-enabled → inconsistent → cleanly-disabled: the FIRST toggle
enters `(enabled=false, inconsistent=true)` and that transition leaves
`changed = false` (line 284), and every transition leaving the
inconsistent state sets `changed = true` (line 286). -/
theorem indicator_cycle_amended :
    indicatorOnToggled true cleanEnabledRow = ⟨false, true, false, false⟩ ∧
    indicatorOnToggled true ⟨false, true, false, false⟩ = ⟨false, false, true, true⟩ ∧
    indicatorOnToggled true ⟨false, false, true, true⟩ = ⟨true, false, true, true⟩ ∧
    (∀ s : IndicatorOptState, s.rowInconsistent = true →
      (indicatorOnToggled true s).changed = true) := by
  refine ⟨by decide, by decide, by decide, ?_⟩
  intro s h
  obtain ⟨re, ri, en, ch⟩ := s
  cases ri with
  | false => cases h
  | true => cases re <;> simp [indicatorOnToggled]

/-- Witness for `indicator_cycle_amended`: leaving the concrete
inconsistent state sets `changed`. -/
theorem indicator_cycle_amended_witness :
    (indicatorOnToggled true ⟨false, true, false, false⟩).changed = true :=
  indicator_cycle_amended.2.2.2 ⟨false, true, false, false⟩ rfl

/-- Claim C4, counterexample: a programmatic write through
`IndicatorOption`'s value setter sets `changed`. Both of the kind's
bindings get block flag false from line 63, the ENABLED column write of
line 291 emits `row-changed`, and `_on_row_changed` (lines 273-275)
touches its own row. -/
theorem indicator_set_value_marks_changed :
    (indicatorSetValue "1" ⟨true, false, true, false⟩).changed = true := rfl

/-- Claim C4, amended: the value setter suppresses exactly the handlers
whose bindings carry the block flag, so for every kind except
`IndicatorOption` (and `IconOption` written in icon mode with differing
text, whose `_on_icon_changed` is likewise unblocked) a programmatic
assignment leaves `changed` untouched; for `IndicatorOption` it always
sets `changed`. -/
theorem set_value_preserves_changed_amended :
    (∀ v s, (boolSetValue v s).changed = s.changed) ∧
    (∀ v s, (stringSetValue v s).changed = s.changed) ∧
    (∀ v s, (intSetValue v s).changed = s.changed) ∧
    (∀ v s, (fontSetValue v s).changed = s.changed) ∧
    (∀ dir v s, (pathSetValue dir v s).changed = s.changed) ∧
    (∀ v s, (backgroundSetValue v s).changed = s.changed) ∧
    (∀ v s, (fontScaleSetValue v s).changed = s.changed) ∧
    (∀ v s, (oskSetValue v s).changed = s.changed) ∧
    (∀ v s, startsHash v = false → (iconSetValue v s).changed = s.changed) ∧
    (∀ v s, (indicatorSetValue v s).changed = true) := by
  refine ⟨fun v s => rfl, fun v s => rfl, fun v s => rfl, fun v s => rfl, ?_, ?_, ?_,
    fun v s => rfl, ?_, fun v s => rfl⟩
  · intro dir v s
    by_cases h : v = "" <;> simp [pathSetValue, h]
  · intro v s
    simp only [backgroundSetValue]
    by_cases h1 : startsHash v <;> by_cases h2 : pyTruthy v <;>
      simp [h1, h2] <;> cases hc : gdkColorParse (if pyIntHexOk (strDrop1 v).data then v else strDrop1 v) <;>
      simp [hc]
  · intro v s
    by_cases h : pyTruthy v <;> simp [fontScaleSetValue, h]
  · intro v s h
    simp [iconSetValue, h]

/-- Witness for `set_value_preserves_changed_amended`: a concrete
file-mode icon write preserves `changed = false`. -/
theorem set_value_preserves_changed_amended_witness :
    (iconSetValue "img.png" ⟨true, false, none, "", true, false⟩).changed = false :=
  set_value_preserves_changed_amended.2.2.2.2.2.2.2.2.1 "img.png"
    ⟨true, false, none, "", true, false⟩ rfl

/-- Claim C5, counterexample: saving the removal of `clock`'s only key
does not prune the emptied `clock` section when the DEFAULT section is
nonempty, because `not config[s]` (line 441) counts DEFAULT-inherited
keys: the written store still contains `clock` (as an empty section). -/
theorem save_keeps_emptied_section_with_nonempty_defaults :
    saveStore storeDefaulted [optClockOff] = Except.ok storeDefaulted2 ∧
    alookup storeDefaulted2.sections "clock" = some [] ∧
    storeDefaulted2.defaults ≠ [] := ⟨rfl, rfl, by decide⟩

/-- Claim C9: `reset` (lines 72-74) is idempotent for every registry kind:
`changed` is false after each call and the second call reproduces the
state of the first (each kind's `_set_widget_value` is a deterministic
function of the value being written and the branch-relevant prior state,
and the written value — the unchanged `default` — is the same both
times). `ChoiceOption` is not covered: it is abstract in the source
(`NotImplementedError`) and never instantiated by the registry. -/
theorem reset_idempotent_all_kinds :
    (∀ d s, (boolReset d s).changed = false ∧ boolReset d (boolReset d s) = boolReset d s) ∧
    (∀ d s, (stringReset d s).changed = false ∧ stringReset d (stringReset d s) = stringReset d s) ∧
    (∀ d s, (intReset d s).changed = false ∧ intReset d (intReset d s) = intReset d s) ∧
    (∀ d s, (fontReset d s).changed = false ∧ fontReset d (fontReset d s) = fontReset d s) ∧
    (∀ dir d s, (pathReset dir d s).changed = false ∧
      pathReset dir d (pathReset dir d s) = pathReset dir d s) ∧
    (∀ d s, (backgroundReset d s).changed = false ∧
      backgroundReset d (backgroundReset d s) = backgroundReset d s) ∧
    (∀ d s, (iconReset d s).changed = false ∧ iconReset d (iconReset d s) = iconReset d s) ∧
    (∀ d s, (fontScaleReset d s).changed = false ∧
      fontScaleReset d (fontScaleReset d s) = fontScaleReset d s) ∧
    (∀ d s, (oskReset d s).changed = false ∧ oskReset d (oskReset d s) = oskReset d s) ∧
    (∀ d s, (indicatorReset d s).changed = false ∧
      indicatorReset d (indicatorReset d s) = indicatorReset d s) := by
  refine ⟨fun d s => ⟨rfl, rfl⟩, fun d s => ⟨rfl, rfl⟩, fun d s => ⟨rfl, rfl⟩,
    fun d s => ⟨rfl, rfl⟩, ?_, ?_, ?_, ?_, fun d s => ⟨rfl, rfl⟩, fun d s => ⟨rfl, rfl⟩⟩
  · intro dir d s
    refine ⟨?_, ?_⟩ <;> by_cases h : d = "" <;> simp [pathReset, pathSetValue, h]
  · intro d s
    refine ⟨rfl, ?_⟩
    simp only [backgroundReset, backgroundSetValue]
    by_cases h1 : startsHash d <;> by_cases h2 : pyTruthy d <;>
      simp [h1, h2] <;> cases hc : gdkColorParse (if pyIntHexOk (strDrop1 d).data then d else strDrop1 d) <;>
      simp [hc]
  · intro d s
    refine ⟨rfl, ?_⟩
    by_cases h : startsHash d
    · by_cases h2 : strDrop1 d = s.iconText <;> simp [iconReset, iconSetValue, h, h2]
    · simp [iconReset, iconSetValue, h]
  · intro d s
    refine ⟨?_, ?_⟩ <;> by_cases h : pyTruthy d <;> simp [fontScaleReset, fontScaleSetValue, h]

/-! ### Digit lemmas for the integer round trip -/

theorem mk_data (l : List Char) : (String.mk l).data = l := rfl

theorem digitsVal_natDigits : ∀ n : Nat, digitsVal (natDigits n) = n := by
  intro n
  induction n using Nat.strong_induction_on with
  | _ n ih =>
    unfold natDigits
    by_cases h : n < 10
    · rw [dif_pos h]
      simp [digitsVal]
    · rw [dif_neg h]
      have hlt : n / 10 < n := Nat.div_lt_self (by omega) (by omega)
      have ihd := ih (n / 10) hlt
      simp only [digitsVal] at ihd ⊢
      rw [List.foldl_append, ihd, List.foldl_cons, List.foldl_nil]
      omega

theorem natDigits_lt_ten : ∀ n : Nat, ∀ d ∈ natDigits n, d < 10 := by
  intro n
  induction n using Nat.strong_induction_on with
  | _ n ih =>
    intro d hd
    unfold natDigits at hd
    by_cases h : n < 10
    · rw [dif_pos h] at hd
      simp at hd
      omega
    · rw [dif_neg h] at hd
      rcases List.mem_append.mp hd with h1 | h2
      · exact ih (n / 10) (Nat.div_lt_self (by omega) (by omega)) d h1
      · simp at h2
        omega

theorem natDigits_ne_nil (n : Nat) : natDigits n ≠ [] := by
  unfold natDigits
  by_cases h : n < 10
  · rw [dif_pos h]
    simp
  · rw [dif_neg h]
    simp

theorem chrDigit_digitChr (d : Nat) (h : d < 10) : chrDigit (digitChr d) = some d := by
  interval_cases d <;> decide

theorem digitChr_toNat (d : Nat) (h : d < 10) : (digitChr d).toNat = 48 + d := by
  interval_cases d <;> decide

theorem digitsOf_map_digitChr :
    ∀ ds : List Nat, (∀ d ∈ ds, d < 10) → digitsOf (ds.map digitChr) = some ds := by
  intro ds
  induction ds with
  | nil => intro _; rfl
  | cons a l ihl =>
    intro h
    have ha : a < 10 := h a (List.mem_cons_self a l)
    have hl := ihl (fun d hd => h d (List.mem_cons_of_mem a hd))
    simp [digitsOf, chrDigit_digitChr a ha, hl]

theorem parseDigitRun_natDigitChars (n : Nat) :
    parseDigitRun (natDigitChars n) = Except.ok n := by
  have hv := digitsVal_natDigits n
  cases hd : natDigits n with
  | nil => exact absurd hd (natDigits_ne_nil n)
  | cons a l =>
    have hmm := digitsOf_map_digitChr (natDigits n) (natDigits_lt_ten n)
    rw [hd] at hmm hv
    rw [List.map_cons] at hmm
    simp only [natDigitChars, hd, List.map_cons, parseDigitRun, hmm, hv]

/-- Claim C8: parse/format round-trips for the fully specified domains.
Boolean: `to_bool` (line 19) applied to the formatted value
(`str(int(active))`, lines 130/437) recovers both booleans. Integer:
`int(str(n)) = n` (lines 140-143) for every integer. -/
theorem parse_format_roundtrip :
    (∀ b : Bool, pyToBool (boolFormat b) = b) ∧
    (∀ i : Int, pyInt (pyStrInt i) = Except.ok i) := by
  constructor
  · intro b
    cases b <;> decide
  · intro i
    cases i with
    | ofNat m =>
      have hneg : ¬((Int.ofNat m) < 0) := not_lt.mpr (Int.ofNat_nonneg m)
      rw [pyStrInt, if_neg hneg]
      show pyInt (String.mk (natDigitChars m)) = Except.ok (Int.ofNat m)
      cases hd : natDigits m with
      | nil => exact absurd hd (natDigits_ne_nil m)
      | cons a l =>
        have ha : a < 10 := natDigits_lt_ten m a (by rw [hd]; exact List.mem_cons_self a l)
        have hta := digitChr_toNat a ha
        have hpr : parseDigitRun (digitChr a :: List.map digitChr l) = Except.ok m := by
          have hh := parseDigitRun_natDigitChars m
          rwa [natDigitChars, hd, List.map_cons] at hh
        rw [natDigitChars, hd, List.map_cons]
        simp only [pyInt, mk_data]
        rw [if_neg (by rw [hta]; omega), if_neg (by rw [hta]; omega), hpr]
        rfl
    | negSucc m =>
      have hneg : (Int.negSucc m) < 0 := Int.negSucc_lt_zero m
      rw [pyStrInt, if_pos hneg]
      show pyInt (String.mk (Char.ofNat 45 :: natDigitChars (m + 1))) = Except.ok (Int.negSucc m)
      have hpr := parseDigitRun_natDigitChars (m + 1)
      simp only [pyInt, mk_data]
      rw [if_pos (by decide), hpr]
      rw [Int.negSucc_eq]
      push_cast
      ring_nf

/-! ### Association-list lemmas -/

theorem alookup_aset_self {κ α : Type} [DecidableEq κ] :
    ∀ (l : List (κ × α)) (k : κ) (v : α), alookup (aset l k v) k = some v := by
  intro l k v
  induction l with
  | nil => simp [aset, alookup]
  | cons p rest ih =>
    obtain ⟨k1, v1⟩ := p
    by_cases h : k1 = k
    · simp [aset, h, alookup]
    · simp [aset, h, alookup, ih]

theorem alookup_aset_ne {κ α : Type} [DecidableEq κ] :
    ∀ (l : List (κ × α)) (k k2 : κ) (v : α), k2 ≠ k →
      alookup (aset l k v) k2 = alookup l k2 := by
  intro l k k2 v hne
  induction l with
  | nil =>
    simp only [aset, alookup]
    rw [if_neg (fun hh => hne hh.symm)]
  | cons p rest ih =>
    obtain ⟨k1, v1⟩ := p
    rw [aset]
    by_cases h : k1 = k
    · have h3 : ¬(k1 = k2) := fun hh => hne (hh.symm.trans h)
      rw [if_pos h, alookup, alookup, if_neg h3, if_neg h3]
    · rw [if_neg h, alookup, alookup]
      by_cases h2 : k1 = k2
      · rw [if_pos h2, if_pos h2]
      · rw [if_neg h2, if_neg h2, ih]

theorem alookup_aremove {κ α : Type} [DecidableEq κ] :
    ∀ (l : List (κ × α)) (k k2 : κ),
      alookup (aremove l k) k2 = if k2 = k then none else alookup l k2 := by
  intro l k k2
  induction l with
  | nil => by_cases h : k2 = k <;> simp [aremove, alookup, h]
  | cons p rest ih =>
    obtain ⟨k1, v1⟩ := p
    by_cases h1 : k1 = k
    · have hik : aremove ((k1, v1) :: rest) k = aremove rest k := by
        simp [aremove, h1]
      rw [hik, ih]
      by_cases h2 : k2 = k
      · rw [if_pos h2, if_pos h2]
      · have h3 : ¬(k1 = k2) := fun hh => h2 (hh.symm.trans h1)
        rw [if_neg h2, if_neg h2, alookup, if_neg h3]
    · have hik : aremove ((k1, v1) :: rest) k = (k1, v1) :: aremove rest k := by
        simp [aremove, h1]
      rw [hik, alookup]
      by_cases h2 : k1 = k2
      · have h3 : ¬(k2 = k) := fun hh => h1 (h2.trans hh)
        rw [if_pos h2, if_neg h3, alookup, if_pos h2]
      · rw [if_neg h2, ih]
        by_cases h3 : k2 = k
        · rw [if_pos h3, if_pos h3]
        · rw [if_neg h3, if_neg h3, alookup, if_neg h2]

theorem aset_eq_self {κ α : Type} [DecidableEq κ] :
    ∀ (l : List (κ × α)) (k : κ) (v : α), alookup l k = some v → aset l k v = l := by
  intro l k v
  induction l with
  | nil => intro h; cases h
  | cons p rest ih =>
    obtain ⟨k1, v1⟩ := p
    intro h
    by_cases h1 : k1 = k
    · rw [alookup, if_pos h1] at h
      injection h with h2
      simp [aset, h1, h2]
    · rw [alookup, if_neg h1] at h
      simp [aset, h1, ih h]

theorem aremove_eq_self {κ α : Type} [DecidableEq κ] :
    ∀ (l : List (κ × α)) (k : κ), alookup l k = none → aremove l k = l := by
  intro l k
  induction l with
  | nil => intro _; rfl
  | cons p rest ih =>
    obtain ⟨k1, v1⟩ := p
    intro h
    by_cases h1 : k1 = k
    · rw [alookup, if_pos h1] at h
      cases h
    · rw [alookup, if_neg h1] at h
      simp [aremove, h1] at ih ⊢
      exact ih h

theorem map_fst_aset_of_isSome {κ α : Type} [DecidableEq κ] :
    ∀ (l : List (κ × α)) (k : κ) (v : α), (alookup l k).isSome →
      (aset l k v).map Prod.fst = l.map Prod.fst := by
  intro l k v
  induction l with
  | nil => intro h; cases h
  | cons p rest ih =>
    obtain ⟨k1, v1⟩ := p
    intro h
    by_cases h1 : k1 = k
    · simp [aset, h1]
    · rw [alookup, if_neg h1] at h
      simp [aset, h1, ih h]

theorem alookup_eq_none_of_not_mem {κ α : Type} [DecidableEq κ] :
    ∀ (l : List (κ × α)) (k : κ), k ∉ l.map Prod.fst → alookup l k = none := by
  intro l k
  induction l with
  | nil => intro _; rfl
  | cons p rest ih =>
    obtain ⟨k1, v1⟩ := p
    intro h
    simp only [List.map_cons, List.mem_cons] at h
    push_neg at h
    rw [alookup, if_neg (fun hh => h.1 hh.symm)]
    exact ih h.2

theorem not_mem_of_alookup_eq_none {κ α : Type} [DecidableEq κ] :
    ∀ (l : List (κ × α)) (k : κ), alookup l k = none → k ∉ l.map Prod.fst := by
  intro l k
  induction l with
  | nil => intro _ h; cases h
  | cons p rest ih =>
    obtain ⟨k1, v1⟩ := p
    intro h hmem
    by_cases h1 : k1 = k
    · rw [alookup, if_pos h1] at h
      cases h
    · rw [alookup, if_neg h1] at h
      simp only [List.map_cons, List.mem_cons] at hmem
      rcases hmem with h2 | h2
      · exact h1 h2.symm
      · exact ih h h2

theorem alookup_append {κ α : Type} [DecidableEq κ] :
    ∀ (l1 l2 : List (κ × α)) (k : κ),
      alookup (l1 ++ l2) k = ((alookup l1 k).orElse (fun _ => alookup l2 k)) := by
  intro l1 l2 k
  induction l1 with
  | nil => simp [alookup, Option.orElse]
  | cons p rest ih =>
    obtain ⟨k1, v1⟩ := p
    by_cases h1 : k1 = k <;> simp [alookup, h1, ih, Option.orElse]

theorem alookup_filter_none {κ α : Type} [DecidableEq κ] (q : κ × α → Bool) :
    ∀ (l : List (κ × α)) (k : κ), alookup l k = none → alookup (l.filter q) k = none := by
  intro l k
  induction l with
  | nil => intro _; rfl
  | cons p rest ih =>
    obtain ⟨k1, v1⟩ := p
    intro h
    by_cases h1 : k1 = k
    · rw [alookup, if_pos h1] at h
      cases h
    · rw [alookup, if_neg h1] at h
      rw [List.filter_cons]
      by_cases hq : q (k1, v1) <;> simp [hq, alookup, h1, ih h]

/-! ### Store-operation lemmas -/

theorem ownLookup_eq (c : ConfigParser) {s : String} {kvs : List (String × String)}
    (h : alookup c.sections s = some kvs) (k : String) :
    ownLookup c s k = alookup kvs k := by
  unfold ownLookup
  rw [h]
  rfl

theorem ownLookup_none (c : ConfigParser) {s : String}
    (h : alookup c.sections s = none) (k : String) : ownLookup c s k = none := by
  unfold ownLookup
  rw [h]
  rfl

theorem hasSection_eq_isSome {c : ConfigParser} {s : String} (hs : s ≠ "DEFAULT") :
    c.hasSection s = (alookup c.sections s).isSome := by
  unfold ConfigParser.hasSection
  rw [beq_eq_false_iff_ne.mpr hs]
  rfl

theorem addSection_ok {c : ConfigParser} {s : String} (hs : s ≠ "DEFAULT")
    (hnone : alookup c.sections s = none) :
    c.addSection s = Except.ok { c with sections := c.sections ++ [(s, [])] } := by
  unfold ConfigParser.addSection
  rw [if_neg hs, hnone]
  rfl

theorem setOpt_ok_inv {c c1 : ConfigParser} {s k v : String}
    (hs : s ≠ "DEFAULT") (h : c.setOpt s k v = Except.ok c1) :
    noPercent v = true ∧ ∃ kvs, alookup c.sections s = some kvs ∧
      c1 = { c with sections := aset c.sections s (aset kvs k v) } := by
  unfold ConfigParser.setOpt at h
  cases hnp : noPercent v with
  | false =>
    rw [hnp, if_pos rfl] at h
    cases h
  | true =>
    rw [hnp, if_neg (by decide), if_neg hs] at h
    cases hkv : alookup c.sections s with
    | none =>
      rw [hkv] at h
      cases h
    | some kvs =>
      rw [hkv] at h
      change Except.ok ({ c with sections := aset c.sections s (aset kvs k v) } : ConfigParser)
        = Except.ok c1 at h
      injection h with h1
      exact ⟨rfl, kvs, rfl, h1.symm⟩

theorem removeOpt_ok_inv {c c1 : ConfigParser} {s k : String}
    (hs : s ≠ "DEFAULT") (h : c.removeOpt s k = Except.ok c1) :
    ∃ kvs, alookup c.sections s = some kvs ∧
      c1 = { c with sections := aset c.sections s (aremove kvs k) } := by
  unfold ConfigParser.removeOpt at h
  rw [if_neg hs] at h
  cases hkv : alookup c.sections s with
  | none =>
    rw [hkv] at h
    cases h
  | some kvs =>
    rw [hkv] at h
    change Except.ok ({ c with sections := aset c.sections s (aremove kvs k) } : ConfigParser)
      = Except.ok c1 at h
    injection h with h1
    exact ⟨kvs, rfl, h1.symm⟩


theorem ownLookup_set_record (c : ConfigParser) {sec : String} {kvs : List (String × String)}
    (hkv : alookup c.sections sec = some kvs) (key v : String) :
    ∀ s k, ownLookup { c with sections := aset c.sections sec (aset kvs key v) } s k
      = (if s = sec ∧ k = key then some v else ownLookup c s k) := by
  intro s k
  by_cases hs : s = sec
  · subst hs
    rw [ownLookup_eq _ (alookup_aset_self c.sections s (aset kvs key v)) k]
    by_cases hk : k = key
    · subst hk
      rw [alookup_aset_self, if_pos ⟨rfl, rfl⟩]
    · rw [alookup_aset_ne _ _ _ _ hk, if_neg (fun hc2 => hk hc2.2), ownLookup_eq c hkv k]
  · have hL : ownLookup { c with sections := aset c.sections sec (aset kvs key v) } s k
        = ownLookup c s k := by
      unfold ownLookup
      dsimp only
      rw [alookup_aset_ne _ _ _ _ hs]
    rw [hL, if_neg (fun hc2 => hs hc2.1)]

theorem ownLookup_remove_record (c : ConfigParser) {sec : String} {kvs : List (String × String)}
    (hkv : alookup c.sections sec = some kvs) (key : String) :
    ∀ s k, ownLookup { c with sections := aset c.sections sec (aremove kvs key) } s k
      = (if s = sec ∧ k = key then none else ownLookup c s k) := by
  intro s k
  by_cases hs : s = sec
  · subst hs
    rw [ownLookup_eq _ (alookup_aset_self c.sections s (aremove kvs key)) k]
    by_cases hk : k = key
    · subst hk
      rw [alookup_aremove, if_pos rfl, if_pos ⟨rfl, rfl⟩]
    · rw [alookup_aremove, if_neg hk, if_neg (fun hc2 => hk hc2.2), ownLookup_eq c hkv k]
  · have hL : ownLookup { c with sections := aset c.sections sec (aremove kvs key) } s k
        = ownLookup c s k := by
      unfold ownLookup
      dsimp only
      rw [alookup_aset_ne _ _ _ _ hs]
    rw [hL, if_neg (fun hc2 => hs hc2.1)]

theorem ownLookup_append_set (c : ConfigParser) {sec : String}
    (hnone : alookup c.sections sec = none) (key v : String) :
    ∀ s k, ownLookup
        { c with sections := aset (c.sections ++ [(sec, [])]) sec (aset [] key v) } s k
      = (if s = sec ∧ k = key then some v else ownLookup c s k) := by
  intro s k
  by_cases hs : s = sec
  · subst hs
    rw [ownLookup_eq _ (alookup_aset_self (c.sections ++ [(s, [])]) s (aset [] key v)) k]
    by_cases hk : k = key
    · subst hk
      rw [alookup_aset_self, if_pos ⟨rfl, rfl⟩]
    · rw [alookup_aset_ne _ _ _ _ hk, if_neg (fun hc2 => hk hc2.2), ownLookup_none c hnone k]
      rfl
  · have hL : ownLookup
        { c with sections := aset (c.sections ++ [(sec, [])]) sec (aset [] key v) } s k
        = ownLookup c s k := by
      unfold ownLookup
      dsimp only
      rw [alookup_aset_ne _ _ _ _ hs, alookup_append]
      have hsg : alookup [(sec, ([] : List (String × String)))] s = none := by
        rw [alookup, if_neg (fun hcontra => hs hcontra.symm)]
        rfl
      rw [hsg]
      cases alookup c.sections s <;> rfl
    rw [hL, if_neg (fun hc2 => hs hc2.1)]

/-- Effect of one `save`-loop iteration (lines 433-439) on the store, for
the non-DEFAULT sections this program declares: an unchanged option is a
no-op; a changed one rewrites exactly its own `(section, key)` and leaves
every other own-key, the DEFAULT section, and section-name uniqueness
intact. -/
theorem applyOpt_ok_inv {c c1 : ConfigParser} {o : ConfOption}
    (hdef : o.changed = true → o.sec ≠ "DEFAULT")
    (h : applyOpt c o = Except.ok c1) :
    (o.changed = false ∧ c1 = c) ∨
    (o.changed = true ∧
      c1.defaults = c.defaults ∧
      ((c.sections.map Prod.fst).Nodup → (c1.sections.map Prod.fst).Nodup) ∧
      (∀ s k, ¬(s = o.sec ∧ k = o.key) → ownLookup c1 s k = ownLookup c s k) ∧
      ownLookup c1 o.sec o.key = (if o.enabled = true then some o.value else none) ∧
      (o.enabled = true → noPercent o.value = true)) := by
  by_cases hch : o.changed = true
  case neg =>
    left
    have hch2 : o.changed = false := by
      cases hcc : o.changed
      · rfl
      · exact absurd hcc hch
    unfold applyOpt at h
    rw [if_neg hch] at h
    injection h with h1
    exact ⟨hch2, h1.symm⟩
  case pos =>
    right
    have hsec := hdef hch
    refine ⟨hch, ?_⟩
    unfold applyOpt at h
    rw [if_pos hch] at h
    by_cases hen : o.enabled = true
    · rw [if_pos hen] at h
      by_cases hhs : c.hasSection o.sec = true
      · rw [if_pos hhs] at h
        change c.setOpt o.sec o.key o.value = Except.ok c1 at h
        obtain ⟨hnp, kvs, hkv, hc1⟩ := setOpt_ok_inv hsec h
        have hown := ownLookup_set_record c hkv o.key o.value
        refine ⟨by rw [hc1], ?_, ?_, ?_, fun _ => hnp⟩
        · intro hnd
          rw [hc1]
          dsimp only
          rw [map_fst_aset_of_isSome c.sections o.sec _ (by rw [hkv]; rfl)]
          exact hnd
        · intro s k hne
          rw [hc1, hown s k, if_neg (fun hc2 => hne ⟨hc2.1, hc2.2⟩)]
        · rw [hc1, hown o.sec o.key, if_pos ⟨rfl, rfl⟩, if_pos hen]
      · rw [if_neg hhs] at h
        have hnone : alookup c.sections o.sec = none := by
          cases hx : alookup c.sections o.sec with
          | none => rfl
          | some kvs =>
            exact absurd (by rw [hasSection_eq_isSome hsec, hx]; rfl) hhs
        rw [addSection_ok hsec hnone] at h
        change ConfigParser.setOpt { c with sections := c.sections ++ [(o.sec, [])] }
          o.sec o.key o.value = Except.ok c1 at h
        obtain ⟨hnp, kvs, hkv, hc1⟩ := setOpt_ok_inv hsec h
        have happ : alookup (c.sections ++ [(o.sec, [])]) o.sec = some [] := by
          rw [alookup_append, hnone]
          show alookup [(o.sec, ([] : List (String × String)))] o.sec = some []
          rw [alookup, if_pos rfl]
        have hkvs0 : kvs = [] := by
          have h2 := hkv
          dsimp only at h2
          rw [happ] at h2
          injection h2 with h3
          exact h3.symm
        subst hkvs0
        have hc1b :
            c1 = { c with
                   sections := aset (c.sections ++ [(o.sec, [])]) o.sec (aset [] o.key o.value) } := by
          rw [hc1]
        have hown := ownLookup_append_set c hnone o.key o.value
        refine ⟨by rw [hc1b], ?_, ?_, ?_, fun _ => hnp⟩
        · intro hnd
          rw [hc1b]
          dsimp only
          rw [map_fst_aset_of_isSome _ o.sec _ (by rw [happ]; rfl), List.map_append,
              List.nodup_append]
          refine ⟨hnd, by simp, ?_⟩
          intro x hx hx2
          simp at hx2
          subst hx2
          exact (not_mem_of_alookup_eq_none _ _ hnone) hx
        · intro s k hne
          rw [hc1b, hown s k, if_neg (fun hc2 => hne ⟨hc2.1, hc2.2⟩)]
        · rw [hc1b, hown o.sec o.key, if_pos ⟨rfl, rfl⟩, if_pos hen]
    · rw [if_neg hen] at h
      obtain ⟨kvs, hkv, hc1⟩ := removeOpt_ok_inv hsec h
      have hown := ownLookup_remove_record c hkv o.key
      refine ⟨by rw [hc1], ?_, ?_, ?_, fun hcontra => absurd hcontra hen⟩
      · intro hnd
        rw [hc1]
        dsimp only
        rw [map_fst_aset_of_isSome c.sections o.sec _ (by rw [hkv]; rfl)]
        exact hnd
      · intro s k hne
        rw [hc1, hown s k, if_neg (fun hc2 => hne ⟨hc2.1, hc2.2⟩)]
      · rw [hc1, hown o.sec o.key, if_pos ⟨rfl, rfl⟩, if_neg hen]

/-- Effect of the whole diff loop (lines 432-439), by induction over the
instance list: DEFAULT untouched, section names stay unique, own-keys not
belonging to a changed instance keep their values, and every changed
instance's own key ends as its upsert/removal dictates. -/
theorem saveDiff_ok_inv :
    ∀ (opts : List ConfOption) (c c1 : ConfigParser),
      saveDiff c opts = Except.ok c1 →
      (∀ o ∈ opts, o.changed = true → o.sec ≠ "DEFAULT") →
      List.Pairwise (fun a b : ConfOption => ¬(a.sec = b.sec ∧ a.key = b.key)) opts →
      c1.defaults = c.defaults ∧
      ((c.sections.map Prod.fst).Nodup → (c1.sections.map Prod.fst).Nodup) ∧
      (∀ s k, (∀ o ∈ opts, o.changed = true → ¬(o.sec = s ∧ o.key = k)) →
        ownLookup c1 s k = ownLookup c s k) ∧
      (∀ o ∈ opts, o.changed = true →
        ownLookup c1 o.sec o.key = (if o.enabled = true then some o.value else none) ∧
        (o.enabled = true → noPercent o.value = true)) := by
  intro opts
  induction opts with
  | nil =>
    intro c c1 h _ _
    unfold saveDiff at h
    injection h with h1
    subst h1
    exact ⟨rfl, fun hnd => hnd, fun s k _ => rfl, fun o ho => absurd ho (List.not_mem_nil o)⟩
  | cons o rest ih =>
    intro c c1 h hdef hpw
    unfold saveDiff at h
    cases ha : applyOpt c o with
    | error e =>
      rw [ha] at h
      cases h
    | ok c0 =>
      rw [ha] at h
      change saveDiff c0 rest = Except.ok c1 at h
      obtain ⟨hpwh, hpwt⟩ := List.pairwise_cons.mp hpw
      have hdefh : o.changed = true → o.sec ≠ "DEFAULT" := hdef o (List.mem_cons_self o rest)
      have hdeft : ∀ o2 ∈ rest, o2.changed = true → o2.sec ≠ "DEFAULT" :=
        fun o2 ho2 => hdef o2 (List.mem_cons_of_mem o ho2)
      obtain ⟨ihdef, ihnd, ihframe, ihhits⟩ := ih c0 c1 h hdeft hpwt
      rcases applyOpt_ok_inv hdefh ha with ⟨hch, heq⟩ | ⟨hch, hd, hnd, hframe, hhit, hnp⟩
      · subst heq
        refine ⟨ihdef, ihnd, ?_, ?_⟩
        · intro s k hu
          exact ihframe s k (fun o2 ho2 => hu o2 (List.mem_cons_of_mem o ho2))
        · intro o2 ho2
          rcases List.mem_cons.mp ho2 with he | ht
          · subst he
            intro hc2
            rw [hch] at hc2
            exact Bool.noConfusion hc2
          · exact ihhits o2 ht
      · refine ⟨ihdef.trans hd, fun hndc => ihnd (hnd hndc), ?_, ?_⟩
        · intro s k hu
          rw [ihframe s k (fun o2 ho2 => hu o2 (List.mem_cons_of_mem o ho2))]
          exact hframe s k
            (fun hc2 => (hu o (List.mem_cons_self o rest) hch) ⟨hc2.1.symm, hc2.2.symm⟩)
        · intro o2 ho2
          rcases List.mem_cons.mp ho2 with he | ht
          · subst he
            intro _
            have hcond : ∀ o3 ∈ rest, o3.changed = true → ¬(o3.sec = o2.sec ∧ o3.key = o2.key) :=
              fun o3 ho3 _ hc2 => (hpwh o3 ho3) ⟨hc2.1.symm, hc2.2.symm⟩
            refine ⟨?_, hnp⟩
            rw [ihframe o2.sec o2.key hcond, hhit]
          · exact ihhits o2 ht

/-- Own-key lookups pass through the pruning step unchanged: a pruned
section had no own keys (unique section names guarantee no shadowed
duplicate becomes visible). -/
theorem alookup_bind_filter_empty (dflt : Bool) :
    ∀ (l : List (String × List (String × String))),
      (l.map Prod.fst).Nodup → ∀ (s k : String),
      (alookup (l.filter (fun p => !(!(p.1 == "DEFAULT") && p.2.isEmpty && dflt))) s).bind
          (fun kvs => alookup kvs k)
        = (alookup l s).bind (fun kvs => alookup kvs k) := by
  intro l
  induction l with
  | nil => intro _ s k; rfl
  | cons p rest ih =>
    intro hnd s k
    obtain ⟨p1, p2⟩ := p
    obtain ⟨hhd, hnd2⟩ := List.nodup_cons.mp hnd
    rw [List.filter_cons]
    by_cases hq : (!(!(p1 == "DEFAULT") && p2.isEmpty && dflt)) = true
    · rw [if_pos hq]
      by_cases hps : p1 = s
      · rw [alookup, if_pos hps, alookup, if_pos hps]
      · rw [alookup, if_neg hps, alookup, if_neg hps]
        exact ih hnd2 s k
    · rw [if_neg hq]
      have hq2 : (!(p1 == "DEFAULT") && p2.isEmpty && dflt) = true := by
        cases hx : (!(p1 == "DEFAULT") && p2.isEmpty && dflt)
        · exact absurd (by rw [hx]; rfl) hq
        · rfl
      have hempty : p2 = [] := by
        have ha1 := (Bool.and_eq_true _ _).mp hq2
        have ha2 := (Bool.and_eq_true _ _).mp ha1.1
        exact List.isEmpty_iff.mp ha2.2
      by_cases hps : p1 = s
      · rw [alookup, if_pos hps, hempty]
        have hnone : alookup rest s = none := by
          apply alookup_eq_none_of_not_mem
          rw [← hps]
          exact hhd
        rw [alookup_filter_none _ _ _ hnone]
        rfl
      · rw [alookup, if_neg hps]
        exact ih hnd2 s k

theorem ownLookup_prune (c : ConfigParser) (hnd : (c.sections.map Prod.fst).Nodup)
    (s k : String) : ownLookup c.prune s k = ownLookup c s k := by
  unfold ConfigParser.prune ownLookup
  dsimp only
  exact alookup_bind_filter_empty c.defaults.isEmpty c.sections hnd s k

theorem prune_sections_nodup (c : ConfigParser) (hnd : (c.sections.map Prod.fst).Nodup) :
    ((c.prune).sections.map Prod.fst).Nodup := by
  have hsub : (c.prune).sections.Sublist c.sections := List.filter_sublist _
  exact (hsub.map Prod.fst).nodup hnd

theorem prune_idem (c : ConfigParser) : c.prune.prune = c.prune := by
  unfold ConfigParser.prune
  dsimp only
  congr 1
  rw [List.filter_filter]
  congr 1
  funext p
  rw [Bool.and_self]

/-- Combined effect of `save` up to the write (diff loop + pruning). -/
theorem saveStore_ok_inv {c c2 : ConfigParser} {opts : List ConfOption}
    (hwf : (c.sections.map Prod.fst).Nodup)
    (hdef : ∀ o ∈ opts, o.changed = true → o.sec ≠ "DEFAULT")
    (hpw : List.Pairwise (fun a b : ConfOption => ¬(a.sec = b.sec ∧ a.key = b.key)) opts)
    (h : saveStore c opts = Except.ok c2) :
    c2.defaults = c.defaults ∧
    (c2.sections.map Prod.fst).Nodup ∧
    (∀ s k, (∀ o ∈ opts, o.changed = true → ¬(o.sec = s ∧ o.key = k)) →
      ownLookup c2 s k = ownLookup c s k) ∧
    (∀ o ∈ opts, o.changed = true →
      ownLookup c2 o.sec o.key = (if o.enabled = true then some o.value else none) ∧
      (o.enabled = true → noPercent o.value = true)) := by
  unfold saveStore at h
  cases hdiff : saveDiff c opts with
  | error e =>
    rw [hdiff] at h
    cases h
  | ok c1 =>
    rw [hdiff] at h
    injection h with h1
    subst h1
    obtain ⟨hdd, hnd, hframe, hhits⟩ := saveDiff_ok_inv opts c c1 hdiff hdef hpw
    have hnd1 := hnd hwf
    refine ⟨hdd, prune_sections_nodup c1 hnd1, ?_, ?_⟩
    · intro s k hu
      rw [ownLookup_prune c1 hnd1 s k]
      exact hframe s k hu
    · intro o ho hch
      obtain ⟨h1, h2⟩ := hhits o ho hch
      exact ⟨by rw [ownLookup_prune c1 hnd1]; exact h1, h2⟩

/-- Claim C3: `save`'s diff step (lines 431-443) mutates exactly the own
keys of the changed instances — each changed+enabled instance's
`(section, key)` ends holding its formatted value, each changed+disabled
one ends absent, every key not belonging to a changed instance (in
particular every unchanged instance's key) keeps its pre-save value — and
the DEFAULT section is untouched. Hypotheses: the parsed store has unique
section names, the registry paths are pairwise distinct and none lives in
DEFAULT (both true of `OPTIONS`), and the save completed (`Except.ok`). -/
theorem save_writes_exactly_changed (c c2 : ConfigParser) (opts : List ConfOption)
    (hwf : (c.sections.map Prod.fst).Nodup)
    (hdef : ∀ o ∈ opts, o.changed = true → o.sec ≠ "DEFAULT")
    (hpaths : (opts.map (fun o => (o.sec, o.key))).Nodup)
    (h : saveStore c opts = Except.ok c2) :
    (∀ o ∈ opts, o.changed = true → o.enabled = true →
      ownLookup c2 o.sec o.key = some o.value) ∧
    (∀ o ∈ opts, o.changed = true → o.enabled = false →
      ownLookup c2 o.sec o.key = none) ∧
    (∀ s k, (∀ o ∈ opts, o.changed = true → ¬(o.sec = s ∧ o.key = k)) →
      ownLookup c2 s k = ownLookup c s k) ∧
    (∀ o ∈ opts, o.changed = false →
      ownLookup c2 o.sec o.key = ownLookup c o.sec o.key) ∧
    c2.defaults = c.defaults := by
  have hpw : List.Pairwise (fun a b : ConfOption => ¬(a.sec = b.sec ∧ a.key = b.key)) opts := by
    have h1 := List.pairwise_map.mp hpaths
    exact h1.imp (fun hne hc2 => hne (by rw [Prod.mk.injEq]; exact ⟨hc2.1, hc2.2⟩))
  obtain ⟨hdd, hnd2, hframe, hhits⟩ := saveStore_ok_inv hwf hdef hpw h
  have hall : ∀ a ∈ opts, ∀ b ∈ opts, a ≠ b → ¬(a.sec = b.sec ∧ a.key = b.key) := by
    intro a ha b hb hab
    have hsym : Symmetric (fun a b : ConfOption => ¬(a.sec = b.sec ∧ a.key = b.key)) :=
      fun x y hxy hc2 => hxy ⟨hc2.1.symm, hc2.2.symm⟩
    exact List.Pairwise.forall hsym hpw ha hb hab
  refine ⟨?_, ?_, hframe, ?_, hdd⟩
  · intro o ho hch hen
    rw [(hhits o ho hch).1, if_pos hen]
  · intro o ho hch hen
    rw [(hhits o ho hch).1,
        if_neg (fun hc2 => by rw [hen] at hc2; exact Bool.noConfusion hc2)]
  · intro o ho hch
    apply hframe
    intro o2 ho2 hch2 hc2
    have hne : o2 ≠ o := fun he => by
      rw [he, hch] at hch2
      exact Bool.noConfusion hch2
    exact hall o2 ho2 o ho hne hc2

/-- Witness for `save_writes_exactly_changed` on a concrete store: the
changed+enabled key is upserted, the changed+disabled key is removed, the
untouched key and DEFAULT keep their values. -/
theorem save_writes_exactly_changed_witness :
    ownLookup storeAB2 "appearance" "theme-name" = some "light" ∧
    ownLookup storeAB2 "appearance" "icon-theme-name" = none ∧
    ownLookup storeAB2 "greeter" "allow-other-users"
      = ownLookup storeAB "greeter" "allow-other-users" ∧
    storeAB2.defaults = storeAB.defaults := by
  have h := save_writes_exactly_changed storeAB storeAB2 [optTheme, optIconTheme, optAllow]
    (by decide) (by decide) (by decide) rfl
  exact ⟨h.1 optTheme (by decide) rfl rfl, h.2.1 optIconTheme (by decide) rfl rfl,
    h.2.2.2.1 optAllow (by decide) rfl, h.2.2.2.2⟩

/-- Claim C5, amended: the prune step (lines 441-443) never touches the
DEFAULT section; when DEFAULT is empty it removes exactly the sections
with no own keys; but when DEFAULT is nonempty it removes nothing — the
section proxy's truthiness counts DEFAULT-inherited keys, so an emptied
section stays in the written store (see the counterexample). -/
theorem prune_amended (c : ConfigParser) :
    (c.prune).defaults = c.defaults ∧
    (c.defaults = [] → ∀ p ∈ (c.prune).sections, p.1 ≠ "DEFAULT" → p.2 ≠ []) ∧
    (c.defaults ≠ [] → c.prune = c) := by
  refine ⟨rfl, ?_, ?_⟩
  · intro hdz p hp hpd
    unfold ConfigParser.prune at hp
    dsimp only at hp
    have hmem := List.of_mem_filter hp
    intro hpe
    rw [hdz, hpe] at hmem
    simp at hmem
    exact hpd hmem
  · intro hdnz
    unfold ConfigParser.prune
    have hall : ∀ p ∈ c.sections,
        (!(!(p.1 == "DEFAULT") && p.2.isEmpty && c.defaults.isEmpty)) = true := by
      intro p _
      have hde : c.defaults.isEmpty = false := by
        cases hdx : c.defaults
        · exact absurd hdx hdnz
        · rfl
      rw [hde]
      simp
    rw [List.filter_eq_self.mpr hall]

/-- Witness for `prune_amended`: with a nonempty DEFAULT pruning is the
identity, and with an empty DEFAULT a surviving section has keys. -/
theorem prune_amended_witness :
    ConfigParser.prune storeDefaulted = storeDefaulted ∧
    (("clock", [("enabled", "1")]) : String × List (String × String)).2 ≠ [] := by
  constructor
  · exact (prune_amended storeDefaulted).2.2 (by decide)
  · exact (prune_amended storeClockOnly).2.1 rfl ("clock", [("enabled", "1")])
      (by decide) (by decide)

/-- Claim C6: after a completed `read()` (lines 419-429), each instance
has `enabled = has_option(section, key)` (with `configparser`'s
DEFAULT-inheriting semantics); its `default` is the stored string when the
key is present and the registry's static default otherwise; and `reset()`
has run, so `changed = false` and the controls hold the default value. -/
theorem read_establishes_state (c : ConfigParser) :
    ∀ (opts opts2 : List ConfOption), readOptions c opts = Except.ok opts2 →
      List.Forall₂ (fun o o2 =>
        o2.sec = o.sec ∧ o2.key = o.key ∧
        c.hasOpt o.sec o.key = Except.ok o2.enabled ∧
        (o2.enabled = true → c.getOpt o.sec o.key = Except.ok o2.dflt) ∧
        (o2.enabled = false → o2.dflt = o.staticDefault) ∧
        o2.changed = false ∧ o2.value = o2.dflt) opts opts2 := by
  intro opts
  induction opts with
  | nil =>
    intro opts2 h
    unfold readOptions at h
    injection h with h1
    subst h1
    exact List.Forall₂.nil
  | cons o rest ih =>
    intro opts2 h
    unfold readOptions at h
    cases h1 : readOne c o with
    | error e =>
      rw [h1] at h
      cases h
    | ok o2 =>
      rw [h1] at h
      cases h2 : readOptions c rest with
      | error e =>
        rw [h2] at h
        cases h
      | ok rest2 =>
        rw [h2] at h
        have h3 := Except.ok.inj h
        subst h3
        refine List.Forall₂.cons ?_ (ih rest2 h2)
        unfold readOne at h1
        cases h4 : c.hasOpt o.sec o.key with
        | error e =>
          rw [h4] at h1
          cases h1
        | ok en =>
          rw [h4] at h1
          cases en with
          | true =>
            cases h5 : c.getOpt o.sec o.key with
            | error e =>
              rw [h5] at h1
              exact Except.noConfusion h1
            | ok d =>
              rw [h5] at h1
              have h6 := Except.ok.inj h1
              subst h6
              exact ⟨rfl, rfl, rfl, fun _ => rfl,
                fun hcontra => Bool.noConfusion hcontra, rfl, rfl⟩
          | false =>
            have h6 := Except.ok.inj h1
            subst h6
            exact ⟨rfl, rfl, rfl, fun hcontra => Bool.noConfusion hcontra,
              fun _ => rfl, rfl, rfl⟩

/-- Witness for `read_establishes_state`: reading `appearance.theme-name`
from a store holding `dark` yields an enabled, clean instance whose
controls hold `dark`. -/
theorem read_establishes_state_witness :
    storeRead.hasOpt optThemeFresh.sec optThemeFresh.key = Except.ok optThemeRead.enabled ∧
    optThemeRead.changed = false ∧ optThemeRead.value = optThemeRead.dflt := by
  have h := read_establishes_state storeRead [optThemeFresh] [optThemeRead] rfl
  have h2 := List.forall₂_cons.mp h
  exact ⟨h2.1.2.2.1, h2.1.2.2.2.2.2.1, h2.1.2.2.2.2.2.2⟩

/-- Claim C7: when the final write raises `OSError` (modelled by
`writeOk = false`), `save` (lines 445-451) shows the error and returns
`False`, the option instances come through exactly as they were (save
never assigns to them), and `_on_ok_clicked` (lines 470-472) does not quit
the session. -/
theorem save_write_failure_keeps_options (st : AppState) (r : SaveOutcome)
    (h : appSave st false = Except.ok r) :
    r.ok = false ∧ r.errorShown = true ∧ r.state.options = st.options ∧
    onOkClicked st false = Except.ok (r.state, false) := by
  unfold appSave at h
  cases hs : saveStore st.config st.options with
  | error e =>
    rw [hs] at h
    cases h
  | ok c2 =>
    rw [hs] at h
    have h1 := Except.ok.inj h
    subst h1
    refine ⟨rfl, rfl, rfl, ?_⟩
    unfold onOkClicked appSave
    rw [hs]

/-- Witness for `save_write_failure_keeps_options` on a concrete session. -/
theorem save_write_failure_keeps_options_witness :
    outcomeW7.ok = false ∧ outcomeW7.errorShown = true ∧
    outcomeW7.state.options = stateW7.options ∧
    onOkClicked stateW7 false = Except.ok (outcomeW7.state, false) :=
  save_write_failure_keeps_options stateW7 outcomeW7 rfl

/-- Claim C10, counterexample: `save` leaves `changed` set, but when the
first save's pruning removed the (now empty) section of a changed+disabled
option, the second save's `remove_option` (line 439) raises
`NoSectionError` instead of re-applying the same removal. -/
theorem second_save_raises_after_prune :
    saveStore storeClockOnly [optClockOff] = Except.ok emptyStore ∧
    saveStore emptyStore [optClockOff] = Except.error ("NoSectionError") ∧
    optClockOff.changed = true := ⟨rfl, rfl, rfl⟩

/-- Fold of the diff loop over options that are individually no-ops. -/
theorem saveDiff_fixed (c : ConfigParser) :
    ∀ (opts : List ConfOption), (∀ o ∈ opts, applyOpt c o = Except.ok c) →
      saveDiff c opts = Except.ok c := by
  intro opts
  induction opts with
  | nil => intro _; rfl
  | cons o rest ih =>
    intro hfix
    unfold saveDiff
    rw [hfix o (List.mem_cons_self o rest)]
    change saveDiff c rest = Except.ok c
    exact ih (fun o2 ho2 => hfix o2 (List.mem_cons_of_mem o ho2))

/-- Claim C10, amended: `save` never mutates any option instance — every
completed call returns the `options` it was given — so a second save
recomputes the same diff; the re-application yields the same store again
provided every changed+disabled instance's section still exists in the
saved store (e.g. it kept another key). When the first save pruned such a
section away, the second save instead raises `NoSectionError`, as the
accompanying counterexample shows on a concrete store. -/
theorem save_frame_and_reapply (c c2 : ConfigParser) (opts : List ConfOption)
    (hwf : (c.sections.map Prod.fst).Nodup)
    (hdef : ∀ o ∈ opts, o.changed = true → o.sec ≠ "DEFAULT")
    (hpaths : (opts.map (fun o => (o.sec, o.key))).Nodup)
    (h : saveStore c opts = Except.ok c2)
    (hsec : ∀ o ∈ opts, o.changed = true → o.enabled = false →
      (alookup c2.sections o.sec).isSome = true) :
    (∀ (st : AppState) (w : Bool) (r : SaveOutcome),
      appSave st w = Except.ok r → r.state.options = st.options) ∧
    saveStore c2 opts = Except.ok c2 := by
  constructor
  · intro st w r hr
    unfold appSave at hr
    cases hs : saveStore st.config st.options with
    | error e =>
      rw [hs] at hr
      cases hr
    | ok cx =>
      rw [hs] at hr
      have h1 := Except.ok.inj hr
      rw [← h1]
  · have hpw : List.Pairwise (fun a b : ConfOption => ¬(a.sec = b.sec ∧ a.key = b.key)) opts := by
      have h1 := List.pairwise_map.mp hpaths
      exact h1.imp (fun hne hc2 => hne (by rw [Prod.mk.injEq]; exact ⟨hc2.1, hc2.2⟩))
    obtain ⟨hdd, hnd2, hframe, hhits⟩ := saveStore_ok_inv hwf hdef hpw h
    have hfix : ∀ o ∈ opts, applyOpt c2 o = Except.ok c2 := by
      intro o ho
      by_cases hch : o.changed = true
      · by_cases hen : o.enabled = true
        · obtain ⟨hv, hnp⟩ := hhits o ho hch
          rw [if_pos hen] at hv
          obtain ⟨kvs, hkv, hvk⟩ : ∃ kvs, alookup c2.sections o.sec = some kvs ∧
              alookup kvs o.key = some o.value := by
            unfold ownLookup at hv
            cases hx : alookup c2.sections o.sec with
            | none =>
              rw [hx] at hv
              cases hv
            | some kvs =>
              rw [hx] at hv
              exact ⟨kvs, rfl, hv⟩
          unfold applyOpt
          rw [if_pos hch, if_pos hen]
          have hhs : c2.hasSection o.sec = true := by
            rw [hasSection_eq_isSome (hdef o ho hch), hkv]
            rfl
          rw [if_pos hhs]
          change c2.setOpt o.sec o.key o.value = Except.ok c2
          unfold ConfigParser.setOpt
          rw [hnp hen, if_neg (by decide), if_neg (hdef o ho hch), hkv]
          show Except.ok ({ c2 with sections := aset c2.sections o.sec (aset kvs o.key o.value) } : ConfigParser) = Except.ok c2
          rw [aset_eq_self kvs o.key o.value hvk, aset_eq_self c2.sections o.sec kvs hkv]
        · have hen2 : o.enabled = false := by
            cases hx : o.enabled
            · rfl
            · exact absurd hx hen
          obtain ⟨hv, -⟩ := hhits o ho hch
          rw [if_neg hen] at hv
          obtain ⟨kvs, hkv⟩ := Option.isSome_iff_exists.mp (hsec o ho hch hen2)
          have hvk : alookup kvs o.key = none := by
            unfold ownLookup at hv
            rw [hkv] at hv
            exact hv
          unfold applyOpt
          rw [if_pos hch, if_neg hen]
          unfold ConfigParser.removeOpt
          rw [if_neg (hdef o ho hch), hkv]
          show Except.ok ({ c2 with sections := aset c2.sections o.sec (aremove kvs o.key) } : ConfigParser) = Except.ok c2
          rw [aremove_eq_self kvs o.key hvk, aset_eq_self c2.sections o.sec kvs hkv]
      · unfold applyOpt
        rw [if_neg hch]
    have hprune : c2.prune = c2 := by
      unfold saveStore at h
      cases hd2 : saveDiff c opts with
      | error e =>
        rw [hd2] at h
        cases h
      | ok c1 =>
        rw [hd2] at h
        injection h with h1
        rw [← h1]
        exact prune_idem c1
    unfold saveStore
    rw [saveDiff_fixed c2 opts hfix]
    change Except.ok c2.prune = Except.ok c2
    rw [hprune]

/-- Witness for `save_frame_and_reapply`: when the removal's section keeps
another key, the second save reproduces the same store. -/
theorem save_frame_and_reapply_witness :
    saveStore storeClockTwo2 [optClockOff] = Except.ok storeClockTwo2 :=
  (save_frame_and_reapply storeClockTwo storeClockTwo2 [optClockOff]
    (by decide) (by decide) (by decide) rfl (by decide)).2
